import Mathlib

set_option maxRecDepth 100000

/-!
Shallow embedding of the combustion BLE advertisement packet decoder
(`combustion.go`, function `ExtractCombustionPacket` and its helpers).

Modelling conventions:
* a Go `[]byte` is a `List ℕ` whose entries are intended to be `< 256`;
  theorems that need the byte bound take it as a hypothesis;
* a Go index-out-of-range panic is modelled by `Option`: the decoder
  returns `none` exactly when some read would panic;
* `slices.Reverse(raw[i:j])` mutates the caller's buffer in place, so the
  decoder is modelled with explicit state passing: it returns the decoded
  packet together with the final contents of the caller's buffer;
* Go `float32` arithmetic: every `float32` value produced by this program
  (the constant `0.05`, products `raw * 0.05` with `raw < 2^13`, and
  differences with `20.0`) is an integer multiple of `2 ^ (-28)` and far
  inside the binary32 normal range, so a `float32` is represented exactly
  as an integer number of `2 ^ (-28)` units (`ℤ`, scale factor `2 ^ 28`),
  and each arithmetic step is the exact result rounded to a 24-bit
  significand with round-to-nearest, ties-to-even, which is precisely the
  IEEE-754 binary32 behaviour on this range.
-/

namespace Combustion

/-- Fuelled floor of base-2 logarithm; fuel 64 is enough for every number
below `2 ^ 64`, in particular for every scaled value in this development. -/
def ilog2Aux : ℕ → ℕ → ℕ
  | 0, _ => 0
  | fuel + 1, n => if 2 ≤ n then ilog2Aux fuel (n / 2) + 1 else 0

/-- Floor of the base-2 logarithm (0 at 0), kernel-computable. -/
def ilog2 (n : ℕ) : ℕ := ilog2Aux 64 n

/-- Round `a / 2 ^ k` to the nearest integer, ties to even. -/
def rneShift (a k : ℕ) : ℕ :=
  let q := a / 2 ^ k
  let r := a % 2 ^ k
  let half := 2 ^ k / 2
  if r < half then q
  else if half < r then q + 1
  else if q % 2 = 0 then q else q + 1

/-- Round `n / d` to the nearest integer, ties to even. -/
def rneDiv (n d : ℕ) : ℕ :=
  let q := n / d
  let r := n % d
  if 2 * r < d then q
  else if d < 2 * r then q + 1
  else if q % 2 = 0 then q else q + 1

/-- Round a value given in units of `2 ^ (-28)` to a 24-bit significand,
nearest, ties to even: binary32 rounding on the normal range used here. -/
def round32s (x : ℤ) : ℤ :=
  if x = 0 then 0
  else
    let a := x.natAbs
    let e := ilog2 a
    if e ≤ 23 then x
    else
      let m := rneShift a (e - 23) * 2 ^ (e - 23)
      if x < 0 then -(m : ℤ) else (m : ℤ)

/-- The Go literal `0.05` converted to `float32`: the binary32 value nearest
to `1 / 20`, expressed in units of `2 ^ (-28)` (it lies in `[2^23, 2^24) *
2 ^ (-28)`). -/
def f32005 : ℕ := rneDiv (2 ^ 28) 20

/-- Model of `fromRawTemp`: `Temperature = (raw value * 0.05) - 20`, in
`float32` arithmetic (source line `return (float32(raw) * 0.05) - 20.0`).
The conversion `float32(raw)` is exact (`raw < 2 ^ 16 < 2 ^ 24`); the
multiplication and the subtraction each round once.  Result in units of
`2 ^ (-28)`. -/
def fromRawTemp (raw : ℕ) : ℤ :=
  round32s (round32s ((raw : ℤ) * (f32005 : ℤ)) - 20 * 2 ^ 28)

/-- Go type `CombustionProductType byte`. -/
abbrev CombustionProductType := ℕ

def CombustionUnknownPT : CombustionProductType := 0

def CombustionPredictiveProbePT : CombustionProductType := 1

/-- Go type `CombustionMode byte`. -/
abbrev CombustionMode := ℕ

def CombustionModeNormal : CombustionMode := 0

def CombustionModeInstantRead : CombustionMode := 1

def CombustionModeReserved : CombustionMode := 2

def CombustionModeError : CombustionMode := 3

/-- Go type `CombustionColorID byte`. -/
abbrev CombustionColorID := ℕ

def CombustionColorYellow : CombustionColorID := 0

def CombustionColorGrey : CombustionColorID := 1

/-- Go struct `CombustionPacket`.  `Temps []float32` is a list of scaled
binary32 values (units of `2 ^ (-28)`); `Overheating [8]bool` is a list of
8 booleans. -/
structure CombustionPacket where
  ProductType : CombustionProductType
  SerialNumber : String
  Temps : List ℤ
  Mode : CombustionMode
  ColorID : CombustionColorID
  ProbeID : ℕ
  BatteryOK : Bool
  VirtualCoreIndex : ℕ
  VirtualSurfaceIndex : ℕ
  VirtualAmbientIndex : ℕ
  Overheating : List Bool
deriving DecidableEq, Repr

/-- The lowercase table of `encoding/hex` (`const hextable = "0123456789abcdef"`). -/
def hexTable : List Char := "0123456789abcdef".data

/-- Go `hex.EncodeToString`: each byte `b` contributes `hextable[b>>4]` then
`hextable[b&0x0f]`. -/
def hexEncodeToString (bs : List ℕ) : String :=
  String.mk (bs.foldr
    (fun b acc => hexTable.getD (b >>> 4) '0' :: hexTable.getD (b &&& 0x0f) '0' :: acc) [])

/-- Go `slices.Reverse(l[i:j])` for constants `i ≤ j`: reverses the sub-range
`[i, j)` of the backing buffer in place; taking the sub-slice panics when
`j` exceeds the length (modelled by `none`). -/
def revSliceGo (l : List ℕ) (i j : ℕ) : Option (List ℕ) :=
  if j ≤ l.length then
    some (l.take i ++ ((l.drop i).take (j - i)).reverse ++ l.drop j)
  else none

/-- Raw 13-bit value read by the InstantRead branch (source line
`(uint16(rawPacket[16]&0x1f) << 8) | uint16(rawPacket[17]&0xff)`); no Go
`uint16` operation here can exceed `2 ^ 16`, so plain `ℕ` is exact. -/
def instantRawTemp (x16 x17 : ℕ) : ℕ :=
  ((x16 &&& 0x1f) <<< 8) ||| (x17 &&& 0xff)

/-- Raw 13-bit values assigned to `Temps[0] .. Temps[7]` by the Normal-mode
branch, as functions of the reversed buffer bytes `rawPacket[5] ..
rawPacket[17]`; each line transcribes the corresponding source line (the
source assigns `Temps[7]` first, this list is the final array in index
order); no Go `uint16` operation here can exceed `2 ^ 16`. -/
def normalRawTemps (x5 x6 x7 x8 x9 x10 x11 x12 x13 x14 x15 x16 x17 : ℕ) : List ℕ :=
  [((x16 &&& 0x1f) <<< 8) ||| (x17 &&& 0xff),
   ((x14 &&& 0x03) <<< 11) ||| ((x15 &&& 0xff) <<< 3) ||| ((x16 &&& 0xe0) >>> 5),
   ((x13 &&& 0x7f) <<< 6) ||| ((x14 &&& 0xfc) >>> 2),
   ((x11 &&& 0x0f) <<< 9) ||| ((x12 &&& 0xff) <<< 1) ||| ((x13 &&& 0x80) >>> 7),
   ((x9 &&& 0x01) <<< 12) ||| ((x10 &&& 0xff) <<< 4) ||| ((x11 &&& 0xf0) >>> 4),
   ((x8 &&& 0x3f) <<< 7) ||| ((x9 &&& 0xfe) >>> 1),
   ((x6 &&& 0x07) <<< 10) ||| ((x7 &&& 0xff) <<< 2) ||| ((x8 &&& 0xc0) >>> 6),
   ((x5 &&& 0xff) <<< 5) ||| (x6 >>> 3)]

/-- Temperature extraction of the source's `if/else if/else` on the mode:
reads of the (already reversed) buffer are `Option`-valued because the
corresponding Go index operations can panic. -/
def extractTemps (mode : ℕ) (r2 : List ℕ) : Option (List ℤ) :=
  if mode = CombustionModeInstantRead then
    (r2[16]?).bind fun x16 =>
    (r2[17]?).bind fun x17 =>
    some [fromRawTemp (instantRawTemp x16 x17)]
  else if mode = CombustionModeNormal then
    (r2[5]?).bind fun x5 =>
    (r2[6]?).bind fun x6 =>
    (r2[7]?).bind fun x7 =>
    (r2[8]?).bind fun x8 =>
    (r2[9]?).bind fun x9 =>
    (r2[10]?).bind fun x10 =>
    (r2[11]?).bind fun x11 =>
    (r2[12]?).bind fun x12 =>
    (r2[13]?).bind fun x13 =>
    (r2[14]?).bind fun x14 =>
    (r2[15]?).bind fun x15 =>
    (r2[16]?).bind fun x16 =>
    (r2[17]?).bind fun x17 =>
    some ((normalRawTemps x5 x6 x7 x8 x9 x10 x11 x12 x13 x14 x15 x16 x17).map fromRawTemp)
  else some []

/-- Final state of the source's overheating loop `for i := range 8 {
packet.Overheating[7-i] = raw[21]&ohMask == ohMask; ohMask >>= 1 }` with
`ohMask` starting at `0x80`, unrolled: entry `j` was written by iteration
`i = 7 - j` with mask `0x80 >> (7 - j)`. -/
def overheatingFlags (b21 : ℕ) : List Bool :=
  [decide (b21 &&& (0x80 >>> 7) = 0x80 >>> 7),
   decide (b21 &&& (0x80 >>> 6) = 0x80 >>> 6),
   decide (b21 &&& (0x80 >>> 5) = 0x80 >>> 5),
   decide (b21 &&& (0x80 >>> 4) = 0x80 >>> 4),
   decide (b21 &&& (0x80 >>> 3) = 0x80 >>> 3),
   decide (b21 &&& (0x80 >>> 2) = 0x80 >>> 2),
   decide (b21 &&& (0x80 >>> 1) = 0x80 >>> 1),
   decide (b21 &&& (0x80 >>> 0) = 0x80 >>> 0)]

/-- Model of `ExtractCombustionPacket`.  Returns the decoded packet together
with the final contents of the caller's buffer (which the source mutates in
place via the two `slices.Reverse` calls); `none` models an index-out-of-range
panic. -/
def ExtractCombustionPacket (rawPacket : List ℕ) : Option (CombustionPacket × List ℕ) :=
  (rawPacket[0]?).bind fun b0 =>
  (revSliceGo rawPacket 1 5).bind fun r1 =>
  let serial := hexEncodeToString ((r1.drop 1).take 4)
  (r1[18]?).bind fun b18 =>
  let mode := b18 &&& 0x03
  let colorID := (b18 >>> 2) &&& 0x70
  let probeID := (b18 >>> 5) &&& 0x70
  (revSliceGo r1 5 18).bind fun r2 =>
  (extractTemps mode r2).bind fun temps =>
  (r2[19]?).bind fun b19 =>
  (r2[21]?).bind fun b21 =>
  some ({ ProductType := b0
          SerialNumber := serial
          Temps := temps
          Mode := mode
          ColorID := colorID
          ProbeID := probeID
          BatteryOK := decide ((b19 &&& 0x01) = 0x00)
          VirtualCoreIndex := (b19 >>> 1) &&& 0x07
          VirtualSurfaceIndex := ((b19 >>> 4) &&& 0x03) + 3
          VirtualAmbientIndex := ((b19 >>> 6) &&& 0x03) + 4
          Overheating := overheatingFlags b21 }, r2)

/-- Little-endian value of a byte list (byte 0 least significant). -/
def leBytes : List ℕ → ℕ
  | [] => 0
  | b :: bs => b + 256 * leBytes bs

/-- All entries of the list are bytes. -/
def IsBytes (l : List ℕ) : Prop := ∀ b ∈ l, b < 256

instance : DecidablePred IsBytes := fun l => List.decidableBAll _ l

/-- A 22-byte advertisement whose byte 18 is `0x02` (mode Reserved). -/
def sampleReserved : List ℕ :=
  [0, 1, 2, 3, 4, 5, 6, 7, 8, 9, 10, 11, 12, 13, 14, 15, 16, 17, 2, 19, 20, 21]

/-- A 22-byte advertisement whose byte 18 is `0x01` (mode InstantRead). -/
def sampleInstant : List ℕ :=
  [0, 1, 2, 3, 4, 5, 6, 7, 8, 9, 10, 11, 12, 13, 14, 15, 16, 17, 1, 19, 20, 21]

/-- A 22-byte advertisement whose byte 18 is `0x00` (mode Normal). -/
def sampleNormal : List ℕ :=
  [0, 1, 2, 3, 4, 5, 6, 7, 8, 9, 10, 11, 12, 13, 14, 15, 16, 17, 0, 19, 20, 21]

/-- A 22-byte advertisement whose byte 0 is `6`, a product-type byte that is
neither of the values declared in the source (0, 1) nor any of the values
0–5 listed in the source's product-type comment. -/
def sampleUnknownPT : List ℕ :=
  [6, 1, 2, 3, 4, 5, 6, 7, 8, 9, 10, 11, 12, 13, 14, 15, 16, 17, 2, 19, 20, 21]

/-- A 22-byte advertisement whose byte 19 is `0x01` (battery fault bit set,
all other virtual-sensor bits zero). -/
def sampleBattery : List ℕ :=
  [0, 1, 2, 3, 4, 5, 6, 7, 8, 9, 10, 11, 12, 13, 14, 15, 16, 17, 2, 1, 20, 21]

/-- A 22-byte advertisement in Normal mode whose thermistor region
(bytes 5–17) is all ones. -/
def sampleAllOnes : List ℕ :=
  [0, 1, 2, 3, 4, 255, 255, 255, 255, 255, 255, 255, 255, 255, 255, 255, 255, 255,
   0, 19, 20, 21]

/-- A 1-byte input, shorter than the 22 bytes the decoder reads. -/
def sampleShort : List ℕ := [0]

/-! ### Reduction helpers for the decoder -/

theorem revSliceGo_1_5 (a b c d e : ℕ) (rest : List ℕ) :
    revSliceGo (a :: b :: c :: d :: e :: rest) 1 5 = some (a :: e :: d :: c :: b :: rest) := by
  unfold revSliceGo
  rw [if_pos (by simp)]
  simp

theorem revSliceGo_5_18 (a1 a2 a3 a4 a5 w1 w2 w3 w4 w5 w6 w7 w8 w9 w10 w11 w12 w13 : ℕ)
    (rest : List ℕ) :
    revSliceGo (a1 :: a2 :: a3 :: a4 :: a5 :: w1 :: w2 :: w3 :: w4 :: w5 :: w6 :: w7 ::
        w8 :: w9 :: w10 :: w11 :: w12 :: w13 :: rest) 5 18 =
      some (a1 :: a2 :: a3 :: a4 :: a5 :: w13 :: w12 :: w11 :: w10 :: w9 :: w8 :: w7 ::
        w6 :: w5 :: w4 :: w3 :: w2 :: w1 :: rest) := by
  unfold revSliceGo
  rw [if_pos (by simp)]
  simp

set_option maxHeartbeats 1000000 in
theorem extract_cons_reserved (b0 b1 b2 b3 b4 b5 b6 b7 b8 b9 b10 b11 b12 b13 b14 b15 b16 b17 b18 b19 b20 b21 : ℕ)
    (t : List ℕ) (hm0 : b18 &&& 0x03 ≠ CombustionModeNormal)
    (hm1 : b18 &&& 0x03 ≠ CombustionModeInstantRead) :
    ExtractCombustionPacket ([b0, b1, b2, b3, b4, b5, b6, b7, b8, b9, b10, b11, b12,
        b13, b14, b15, b16, b17, b18, b19, b20, b21] ++ t) =
      some (⟨b0, hexEncodeToString [b4, b3, b2, b1], [], b18 &&& 0x03,
             (b18 >>> 2) &&& 0x70, (b18 >>> 5) &&& 0x70,
             decide ((b19 &&& 0x01) = 0x00),
             (b19 >>> 1) &&& 0x07, ((b19 >>> 4) &&& 0x03) + 3, ((b19 >>> 6) &&& 0x03) + 4,
             overheatingFlags b21⟩,
            [b0, b4, b3, b2, b1, b17, b16, b15, b14, b13, b12, b11, b10, b9, b8, b7,
             b6, b5, b18, b19, b20, b21] ++ t) := by
  simp only [ExtractCombustionPacket, List.cons_append, List.nil_append,
    List.getElem?_cons_zero, List.getElem?_cons_succ, Option.some_bind,
    revSliceGo_1_5, revSliceGo_5_18,
    List.drop_succ_cons, List.drop_zero, List.take_succ_cons, List.take_zero]
  rw [extractTemps, if_neg hm1, if_neg hm0]
  simp only [Option.some_bind]

set_option maxHeartbeats 1000000 in
theorem extract_cons_instant (b0 b1 b2 b3 b4 b5 b6 b7 b8 b9 b10 b11 b12 b13 b14 b15 b16 b17 b18 b19 b20 b21 : ℕ)
    (t : List ℕ) (hm : b18 &&& 0x03 = CombustionModeInstantRead) :
    ExtractCombustionPacket ([b0, b1, b2, b3, b4, b5, b6, b7, b8, b9, b10, b11, b12,
        b13, b14, b15, b16, b17, b18, b19, b20, b21] ++ t) =
      some (⟨b0, hexEncodeToString [b4, b3, b2, b1],
             [fromRawTemp (instantRawTemp b6 b5)], b18 &&& 0x03,
             (b18 >>> 2) &&& 0x70, (b18 >>> 5) &&& 0x70,
             decide ((b19 &&& 0x01) = 0x00),
             (b19 >>> 1) &&& 0x07, ((b19 >>> 4) &&& 0x03) + 3, ((b19 >>> 6) &&& 0x03) + 4,
             overheatingFlags b21⟩,
            [b0, b4, b3, b2, b1, b17, b16, b15, b14, b13, b12, b11, b10, b9, b8, b7,
             b6, b5, b18, b19, b20, b21] ++ t) := by
  simp only [ExtractCombustionPacket, List.cons_append, List.nil_append,
    List.getElem?_cons_zero, List.getElem?_cons_succ, Option.some_bind,
    revSliceGo_1_5, revSliceGo_5_18,
    List.drop_succ_cons, List.drop_zero, List.take_succ_cons, List.take_zero]
  rw [extractTemps, if_pos hm]
  simp only [List.getElem?_cons_zero, List.getElem?_cons_succ, Option.some_bind]

set_option maxHeartbeats 1000000 in
theorem extract_cons_normal (b0 b1 b2 b3 b4 b5 b6 b7 b8 b9 b10 b11 b12 b13 b14 b15 b16 b17 b18 b19 b20 b21 : ℕ)
    (t : List ℕ) (hm : b18 &&& 0x03 = CombustionModeNormal) :
    ExtractCombustionPacket ([b0, b1, b2, b3, b4, b5, b6, b7, b8, b9, b10, b11, b12,
        b13, b14, b15, b16, b17, b18, b19, b20, b21] ++ t) =
      some (⟨b0, hexEncodeToString [b4, b3, b2, b1],
             (normalRawTemps b17 b16 b15 b14 b13 b12 b11 b10 b9 b8 b7 b6 b5).map fromRawTemp,
             b18 &&& 0x03,
             (b18 >>> 2) &&& 0x70, (b18 >>> 5) &&& 0x70,
             decide ((b19 &&& 0x01) = 0x00),
             (b19 >>> 1) &&& 0x07, ((b19 >>> 4) &&& 0x03) + 3, ((b19 >>> 6) &&& 0x03) + 4,
             overheatingFlags b21⟩,
            [b0, b4, b3, b2, b1, b17, b16, b15, b14, b13, b12, b11, b10, b9, b8, b7,
             b6, b5, b18, b19, b20, b21] ++ t) := by
  have hm1 : b18 &&& 0x03 ≠ CombustionModeInstantRead := by
    rw [hm]
    decide
  simp only [ExtractCombustionPacket, List.cons_append, List.nil_append,
    List.getElem?_cons_zero, List.getElem?_cons_succ, Option.some_bind,
    revSliceGo_1_5, revSliceGo_5_18,
    List.drop_succ_cons, List.drop_zero, List.take_succ_cons, List.take_zero]
  rw [extractTemps, if_neg hm1, if_pos hm]
  simp only [List.getElem?_cons_zero, List.getElem?_cons_succ, Option.some_bind]

theorem revSliceGo_length (l r : List ℕ) (i j : ℕ) (hij : i ≤ j)
    (h : revSliceGo l i j = some r) : r.length = l.length := by
  unfold revSliceGo at h
  split at h
  · cases h
    simp [List.length_append, List.length_take, List.length_reverse, List.length_drop]
    omega
  · cases h

theorem length_ge_of_extract_some (l : List ℕ) (x : CombustionPacket × List ℕ)
    (h : ExtractCombustionPacket l = some x) : 22 ≤ l.length := by
  simp only [ExtractCombustionPacket, Option.bind_eq_some] at h
  obtain ⟨b0, h0, r1, hr1, b18, h18, r2, hr2, temps, ht, b19, h19, b21, h21, hx⟩ := h
  have hlen1 := revSliceGo_length _ _ _ _ (by omega) hr1
  have hlen2 := revSliceGo_length _ _ _ _ (by omega) hr2
  have h21l : 21 < r2.length := (List.getElem?_eq_some_iff.mp h21).1
  omega

theorem extract_eq_none (l : List ℕ) (h : l.length < 22) :
    ExtractCombustionPacket l = none := by
  cases hd : ExtractCombustionPacket l with
  | none => rfl
  | some x =>
    have := length_ge_of_extract_some l x hd
    omega

theorem exists_cons22 (l : List ℕ) (h : 22 ≤ l.length) :
    ∃ b0 b1 b2 b3 b4 b5 b6 b7 b8 b9 b10 b11 b12 b13 b14 b15 b16 b17 b18 b19 b20 b21 t,
      l = [b0, b1, b2, b3, b4, b5, b6, b7, b8, b9, b10, b11, b12, b13, b14, b15, b16,
           b17, b18, b19, b20, b21] ++ t := by
  rcases l with _ | ⟨b0, l⟩
  · simp at h
  rcases l with _ | ⟨b1, l⟩
  · simp at h
  rcases l with _ | ⟨b2, l⟩
  · simp at h
  rcases l with _ | ⟨b3, l⟩
  · simp at h
  rcases l with _ | ⟨b4, l⟩
  · simp at h
  rcases l with _ | ⟨b5, l⟩
  · simp at h
  rcases l with _ | ⟨b6, l⟩
  · simp at h
  rcases l with _ | ⟨b7, l⟩
  · simp at h
  rcases l with _ | ⟨b8, l⟩
  · simp at h
  rcases l with _ | ⟨b9, l⟩
  · simp at h
  rcases l with _ | ⟨b10, l⟩
  · simp at h
  rcases l with _ | ⟨b11, l⟩
  · simp at h
  rcases l with _ | ⟨b12, l⟩
  · simp at h
  rcases l with _ | ⟨b13, l⟩
  · simp at h
  rcases l with _ | ⟨b14, l⟩
  · simp at h
  rcases l with _ | ⟨b15, l⟩
  · simp at h
  rcases l with _ | ⟨b16, l⟩
  · simp at h
  rcases l with _ | ⟨b17, l⟩
  · simp at h
  rcases l with _ | ⟨b18, l⟩
  · simp at h
  rcases l with _ | ⟨b19, l⟩
  · simp at h
  rcases l with _ | ⟨b20, l⟩
  · simp at h
  rcases l with _ | ⟨b21, l⟩
  · simp at h
  exact ⟨b0, b1, b2, b3, b4, b5, b6, b7, b8, b9, b10, b11, b12, b13, b14, b15, b16,
         b17, b18, b19, b20, b21, l, rfl⟩

/-- C1: inputs shorter than 22 bytes always make the decoder fault (the
`Option` failure modelling the Go index-out-of-range panic, the decoder's
only fault), never returning a partially populated packet; inputs of at
least 22 bytes always decode successfully, so length is the only
precondition. -/
theorem C1_truncated_packet (raw : List ℕ) :
    (raw.length < 22 → ExtractCombustionPacket raw = none) ∧
    (22 ≤ raw.length → ∃ p buf, ExtractCombustionPacket raw = some (p, buf)) := by
  refine ⟨fun h => extract_eq_none raw h, fun h => ?_⟩
  obtain ⟨b0, b1, b2, b3, b4, b5, b6, b7, b8, b9, b10, b11, b12, b13, b14, b15, b16,
          b17, b18, b19, b20, b21, t, rfl⟩ := exists_cons22 raw h
  by_cases h1 : b18 &&& 0x03 = CombustionModeInstantRead
  · exact ⟨_, _, extract_cons_instant b0 b1 b2 b3 b4 b5 b6 b7 b8 b9 b10 b11 b12 b13
      b14 b15 b16 b17 b18 b19 b20 b21 t h1⟩
  by_cases h0 : b18 &&& 0x03 = CombustionModeNormal
  · exact ⟨_, _, extract_cons_normal b0 b1 b2 b3 b4 b5 b6 b7 b8 b9 b10 b11 b12 b13
      b14 b15 b16 b17 b18 b19 b20 b21 t h0⟩
  · exact ⟨_, _, extract_cons_reserved b0 b1 b2 b3 b4 b5 b6 b7 b8 b9 b10 b11 b12 b13
      b14 b15 b16 b17 b18 b19 b20 b21 t h0 h1⟩

/-- Witness for C1 at the concrete inputs `sampleShort` and `sampleReserved`. -/
theorem C1_truncated_packet_witness :
    ExtractCombustionPacket sampleShort = none ∧
    ∃ p buf, ExtractCombustionPacket sampleReserved = some (p, buf) :=
  ⟨(C1_truncated_packet sampleShort).1 (by decide),
   (C1_truncated_packet sampleReserved).2 (by decide)⟩

/-- C2 counterexample: decoding the concrete 22-byte input `sampleReserved`
leaves the caller's buffer changed (bytes 1–4 and 5–17 are reversed in
place by the source's two `slices.Reverse` calls), refuting the claim that
every byte of the input buffer is unchanged after the call. -/
theorem C2_counterexample :
    (ExtractCombustionPacket sampleReserved).map Prod.snd =
      some [0, 4, 3, 2, 1, 17, 16, 15, 14, 13, 12, 11, 10, 9, 8, 7, 6, 5, 2, 19, 20, 21] ∧
    [0, 4, 3, 2, 1, 17, 16, 15, 14, 13, 12, 11, 10, 9, 8, 7, 6, 5, 2, 19, 20, 21] ≠
      sampleReserved := by
  decide

/-- C2 amended: for every input of at least 22 bytes the decode succeeds and
the caller's buffer afterwards holds byte 0 unchanged, bytes 1–4 reversed,
bytes 5–17 reversed, and bytes from 18 on unchanged; this in-place reversal
is the decoder's only effect besides its output value. -/
theorem C2_buffer_mutation (raw : List ℕ) (h : 22 ≤ raw.length) :
    ∃ p buf, ExtractCombustionPacket raw = some (p, buf) ∧
      buf = raw.take 1 ++ ((raw.drop 1).take 4).reverse ++
        ((raw.drop 5).take 13).reverse ++ raw.drop 18 := by
  obtain ⟨b0, b1, b2, b3, b4, b5, b6, b7, b8, b9, b10, b11, b12, b13, b14, b15, b16,
          b17, b18, b19, b20, b21, t, rfl⟩ := exists_cons22 raw h
  by_cases h1 : b18 &&& 0x03 = CombustionModeInstantRead
  · exact ⟨_, _, extract_cons_instant b0 b1 b2 b3 b4 b5 b6 b7 b8 b9 b10 b11 b12 b13
      b14 b15 b16 b17 b18 b19 b20 b21 t h1, by simp⟩
  by_cases h0 : b18 &&& 0x03 = CombustionModeNormal
  · exact ⟨_, _, extract_cons_normal b0 b1 b2 b3 b4 b5 b6 b7 b8 b9 b10 b11 b12 b13
      b14 b15 b16 b17 b18 b19 b20 b21 t h0, by simp⟩
  · exact ⟨_, _, extract_cons_reserved b0 b1 b2 b3 b4 b5 b6 b7 b8 b9 b10 b11 b12 b13
      b14 b15 b16 b17 b18 b19 b20 b21 t h0 h1, by simp⟩

/-- Witness for C2 at the concrete input `sampleReserved`. -/
theorem C2_buffer_mutation_witness :
    ∃ p buf, ExtractCombustionPacket sampleReserved = some (p, buf) ∧
      buf = sampleReserved.take 1 ++ ((sampleReserved.drop 1).take 4).reverse ++
        ((sampleReserved.drop 5).take 13).reverse ++ sampleReserved.drop 18 :=
  C2_buffer_mutation sampleReserved (by decide)

/-- C3 counterexample: byte 0 of `sampleUnknownPT` is `6`, not a recognized
product-type value, yet the decoded `ProductType` is `6`, not the `Unknown`
variant (`0`): the source casts the byte through unchanged. -/
theorem C3_counterexample :
    (ExtractCombustionPacket sampleUnknownPT).map (fun x => x.1.ProductType) = some 6 ∧
    (6 : ℕ) ≠ CombustionUnknownPT := by
  decide

/-- C3 amended: for every input of at least 22 bytes, decoding succeeds (an
unrecognized product-type byte is never a fault) and the decoded
`ProductType` equals raw byte 0 unchanged; unrecognized values are passed
through rather than mapped to `Unknown`. -/
theorem C3_product_type_passthrough (raw : List ℕ) (h : 22 ≤ raw.length) :
    ∃ p buf, ExtractCombustionPacket raw = some (p, buf) ∧
      p.ProductType = raw.getD 0 0 := by
  obtain ⟨b0, b1, b2, b3, b4, b5, b6, b7, b8, b9, b10, b11, b12, b13, b14, b15, b16,
          b17, b18, b19, b20, b21, t, rfl⟩ := exists_cons22 raw h
  by_cases h1 : b18 &&& 0x03 = CombustionModeInstantRead
  · exact ⟨_, _, extract_cons_instant b0 b1 b2 b3 b4 b5 b6 b7 b8 b9 b10 b11 b12 b13
      b14 b15 b16 b17 b18 b19 b20 b21 t h1, by simp⟩
  by_cases h0 : b18 &&& 0x03 = CombustionModeNormal
  · exact ⟨_, _, extract_cons_normal b0 b1 b2 b3 b4 b5 b6 b7 b8 b9 b10 b11 b12 b13
      b14 b15 b16 b17 b18 b19 b20 b21 t h0, by simp⟩
  · exact ⟨_, _, extract_cons_reserved b0 b1 b2 b3 b4 b5 b6 b7 b8 b9 b10 b11 b12 b13
      b14 b15 b16 b17 b18 b19 b20 b21 t h0 h1, by simp⟩

/-- Witness for C3 amended at the concrete input `sampleUnknownPT`. -/
theorem C3_product_type_passthrough_witness :
    ∃ p buf, ExtractCombustionPacket sampleUnknownPT = some (p, buf) ∧
      p.ProductType = sampleUnknownPT.getD 0 0 :=
  C3_product_type_passthrough sampleUnknownPT (by decide)

/-- C4: for every input of at least 22 bytes, decoding succeeds, the decoded
mode is the two low bits of byte 18, and the length of `Temps` is a
function of the mode alone: 1 in InstantRead mode, 8 in Normal mode, 0 in
the Reserved and Error modes. -/
theorem C4_temps_length (raw : List ℕ) (h : 22 ≤ raw.length) :
    ∃ p buf, ExtractCombustionPacket raw = some (p, buf) ∧
      p.Mode = (raw.getD 18 0) &&& 0x03 ∧
      (p.Mode = CombustionModeInstantRead → p.Temps.length = 1) ∧
      (p.Mode = CombustionModeNormal → p.Temps.length = 8) ∧
      (p.Mode ≠ CombustionModeInstantRead → p.Mode ≠ CombustionModeNormal →
        p.Temps.length = 0) := by
  obtain ⟨b0, b1, b2, b3, b4, b5, b6, b7, b8, b9, b10, b11, b12, b13, b14, b15, b16,
          b17, b18, b19, b20, b21, t, rfl⟩ := exists_cons22 raw h
  by_cases h1 : b18 &&& 0x03 = CombustionModeInstantRead
  · refine ⟨_, _, extract_cons_instant b0 b1 b2 b3 b4 b5 b6 b7 b8 b9 b10 b11 b12 b13
      b14 b15 b16 b17 b18 b19 b20 b21 t h1, by simp, fun _ => rfl, ?_, ?_⟩
    · intro hm
      rw [h1] at hm
      cases hm
    · intro hni _
      exact absurd h1 hni
  by_cases h0 : b18 &&& 0x03 = CombustionModeNormal
  · refine ⟨_, _, extract_cons_normal b0 b1 b2 b3 b4 b5 b6 b7 b8 b9 b10 b11 b12 b13
      b14 b15 b16 b17 b18 b19 b20 b21 t h0, by simp, ?_, ?_, ?_⟩
    · intro hm
      rw [h0] at hm
      cases hm
    · intro _
      simp [normalRawTemps]
    · intro _ hnn
      exact absurd h0 hnn
  · refine ⟨_, _, extract_cons_reserved b0 b1 b2 b3 b4 b5 b6 b7 b8 b9 b10 b11 b12 b13
      b14 b15 b16 b17 b18 b19 b20 b21 t h0 h1, by simp, ?_, ?_, fun _ _ => rfl⟩
    · intro hm
      exact absurd hm h1
    · intro hm
      exact absurd hm h0

/-- Witness for C4 at the concrete input `sampleInstant`. -/
theorem C4_temps_length_witness :
    ∃ p buf, ExtractCombustionPacket sampleInstant = some (p, buf) ∧
      p.Mode = (sampleInstant.getD 18 0) &&& 0x03 ∧
      (p.Mode = CombustionModeInstantRead → p.Temps.length = 1) ∧
      (p.Mode = CombustionModeNormal → p.Temps.length = 8) ∧
      (p.Mode ≠ CombustionModeInstantRead → p.Mode ≠ CombustionModeNormal →
        p.Temps.length = 0) :=
  C4_temps_length sampleInstant (by decide)

/-! ### Bit-level arithmetic lemmas -/

theorem byte_and_ff (b : ℕ) (h : b < 256) : b &&& 0xff = b := by
  have := Nat.and_pow_two_sub_one_eq_mod b 8
  norm_num at this
  omega

theorem and8191 (x : ℕ) : x &&& 8191 = x % 8192 := by
  have := Nat.and_pow_two_sub_one_eq_mod x 13
  norm_num at this
  exact this

theorem lor_eq_addN (n a b : ℕ) (hn : ∃ i, n = 2 ^ i) (ha : a % n = 0) (hb : b < n) :
    a ||| b = a + b := by
  obtain ⟨i, rfl⟩ := hn
  have hd : 2 ^ i ∣ a := Nat.dvd_of_mod_eq_zero ha
  obtain ⟨c, rfl⟩ := hd
  rw [← Nat.mul_add_lt_is_or hb]

theorem byte_and_1f (b : ℕ) : b &&& 0x1f = b % 32 := by
  have := Nat.and_pow_two_sub_one_eq_mod b 5
  norm_num at this
  exact this

theorem byte_and_03 (b : ℕ) : b &&& 0x03 = b % 4 := by
  have := Nat.and_pow_two_sub_one_eq_mod b 2
  norm_num at this
  exact this

theorem byte_and_07 (b : ℕ) : b &&& 0x07 = b % 8 := by
  have := Nat.and_pow_two_sub_one_eq_mod b 3
  norm_num at this
  exact this

theorem byte_and_0f (b : ℕ) : b &&& 0x0f = b % 16 := by
  have := Nat.and_pow_two_sub_one_eq_mod b 4
  norm_num at this
  exact this

theorem byte_and_01 (b : ℕ) : b &&& 0x01 = b % 2 := Nat.and_one_is_mod b

theorem byte_and_3f (b : ℕ) : b &&& 0x3f = b % 64 := by
  have := Nat.and_pow_two_sub_one_eq_mod b 6
  norm_num at this
  exact this

theorem byte_and_7f (b : ℕ) : b &&& 0x7f = b % 128 := by
  have := Nat.and_pow_two_sub_one_eq_mod b 7
  norm_num at this
  exact this

set_option maxRecDepth 100000 in
theorem byte_and_e0 (b : ℕ) (h : b < 256) : b &&& 0xe0 = b / 32 * 32 := by
  exact (show ∀ x, x < 256 → x &&& 0xe0 = x / 32 * 32 by decide) b h

set_option maxRecDepth 100000 in
theorem byte_and_fc (b : ℕ) (h : b < 256) : b &&& 0xfc = b / 4 * 4 := by
  exact (show ∀ x, x < 256 → x &&& 0xfc = x / 4 * 4 by decide) b h

set_option maxRecDepth 100000 in
theorem byte_and_fe (b : ℕ) (h : b < 256) : b &&& 0xfe = b / 2 * 2 := by
  exact (show ∀ x, x < 256 → x &&& 0xfe = x / 2 * 2 by decide) b h

set_option maxRecDepth 100000 in
theorem byte_and_80 (b : ℕ) (h : b < 256) : b &&& 0x80 = b / 128 * 128 := by
  exact (show ∀ x, x < 256 → x &&& 0x80 = x / 128 * 128 by decide) b h

set_option maxRecDepth 100000 in
theorem byte_and_f0 (b : ℕ) (h : b < 256) : b &&& 0xf0 = b / 16 * 16 := by
  exact (show ∀ x, x < 256 → x &&& 0xf0 = x / 16 * 16 by decide) b h

set_option maxRecDepth 100000 in
theorem byte_and_c0 (b : ℕ) (h : b < 256) : b &&& 0xc0 = b / 64 * 64 := by
  exact (show ∀ x, x < 256 → x &&& 0xc0 = x / 64 * 64 by decide) b h

/-- The eight Normal-mode raw values are exactly the consecutive 13-bit
fields of the 104-bit little-endian value of bytes 5–17, field `s` at bit
offset `13 * s` (the arguments here are the region bytes in reversed order,
as the decoder reads them after `slices.Reverse`). -/
theorem normalRawTemps_eq_bits (w1 w2 w3 w4 w5 w6 w7 w8 w9 w10 w11 w12 w13 : ℕ)
    (h1 : w1 < 256) (h2 : w2 < 256) (h3 : w3 < 256) (h4 : w4 < 256) (h5 : w5 < 256) (h6 : w6 < 256) (h7 : w7 < 256) (h8 : w8 < 256) (h9 : w9 < 256) (h10 : w10 < 256) (h11 : w11 < 256) (h12 : w12 < 256) (h13 : w13 < 256) :
    normalRawTemps w13 w12 w11 w10 w9 w8 w7 w6 w5 w4 w3 w2 w1 =
      (List.range 8).map (fun s => (leBytes [w1, w2, w3, w4, w5, w6, w7, w8, w9, w10, w11, w12, w13] >>> (13 * s)) &&& 8191) := by
  have hr : List.range 8 = [0, 1, 2, 3, 4, 5, 6, 7] := rfl
  rw [hr]
  simp only [List.map_cons, List.map_nil, normalRawTemps]
  simp only [List.cons.injEq, and_true]
  refine ⟨?_, ?_, ?_, ?_, ?_, ?_, ?_, ?_⟩
  · -- slot 0: bits 0–12
    rw [byte_and_1f w2, byte_and_ff w1 h1, and8191]
    simp only [Nat.shiftLeft_eq, Nat.shiftRight_eq_div_pow]
    rw [lor_eq_addN 256 _ _ ⟨8, rfl⟩ (by omega) (by omega)]
    simp only [leBytes]
    omega
  · -- slot 1: bits 13–25
    rw [byte_and_03 w4, byte_and_ff w3 h3, byte_and_e0 w2 h2, and8191]
    simp only [Nat.shiftLeft_eq, Nat.shiftRight_eq_div_pow]
    rw [lor_eq_addN 2048 (w4 % 4 * 2 ^ 11) (w3 * 2 ^ 3) ⟨11, rfl⟩ (by omega) (by omega)]
    rw [lor_eq_addN 8 _ _ ⟨3, rfl⟩ (by omega) (by omega)]
    simp only [leBytes]
    omega
  · -- slot 2: bits 26–38
    rw [byte_and_7f w5, byte_and_fc w4 h4, and8191]
    simp only [Nat.shiftLeft_eq, Nat.shiftRight_eq_div_pow]
    rw [lor_eq_addN 64 _ _ ⟨6, rfl⟩ (by omega) (by omega)]
    simp only [leBytes]
    omega
  · -- slot 3: bits 39–51
    rw [byte_and_0f w7, byte_and_ff w6 h6, byte_and_80 w5 h5, and8191]
    simp only [Nat.shiftLeft_eq, Nat.shiftRight_eq_div_pow]
    rw [lor_eq_addN 512 (w7 % 16 * 2 ^ 9) (w6 * 2 ^ 1) ⟨9, rfl⟩ (by omega) (by omega)]
    rw [lor_eq_addN 2 _ _ ⟨1, rfl⟩ (by omega) (by omega)]
    simp only [leBytes]
    omega
  · -- slot 4: bits 52–64
    rw [byte_and_01 w9, byte_and_ff w8 h8, byte_and_f0 w7 h7, and8191]
    simp only [Nat.shiftLeft_eq, Nat.shiftRight_eq_div_pow]
    rw [lor_eq_addN 4096 (w9 % 2 * 2 ^ 12) (w8 * 2 ^ 4) ⟨12, rfl⟩ (by omega) (by omega)]
    rw [lor_eq_addN 16 _ _ ⟨4, rfl⟩ (by omega) (by omega)]
    simp only [leBytes]
    omega
  · -- slot 5: bits 65–77
    rw [byte_and_3f w10, byte_and_fe w9 h9, and8191]
    simp only [Nat.shiftLeft_eq, Nat.shiftRight_eq_div_pow]
    rw [lor_eq_addN 128 _ _ ⟨7, rfl⟩ (by omega) (by omega)]
    simp only [leBytes]
    omega
  · -- slot 6: bits 78–90
    rw [byte_and_07 w12, byte_and_ff w11 h11, byte_and_c0 w10 h10, and8191]
    simp only [Nat.shiftLeft_eq, Nat.shiftRight_eq_div_pow]
    rw [lor_eq_addN 1024 (w12 % 8 * 2 ^ 10) (w11 * 2 ^ 2) ⟨10, rfl⟩ (by omega) (by omega)]
    rw [lor_eq_addN 4 _ _ ⟨2, rfl⟩ (by omega) (by omega)]
    simp only [leBytes]
    omega
  · -- slot 7: bits 91–103
    rw [byte_and_ff w13 h13, and8191]
    simp only [Nat.shiftLeft_eq, Nat.shiftRight_eq_div_pow]
    rw [lor_eq_addN 32 _ _ ⟨5, rfl⟩ (by omega) (by omega)]
    simp only [leBytes]
    omega

/-- The InstantRead raw value is below `2 ^ 13` for byte inputs. -/
theorem instantRawTemp_lt (x y : ℕ) (hx : x < 256) (hy : y < 256) :
    instantRawTemp x y < 2 ^ 13 := by
  unfold instantRawTemp
  rw [byte_and_1f x, byte_and_ff y hy]
  simp only [Nat.shiftLeft_eq]
  rw [lor_eq_addN 256 _ _ ⟨8, rfl⟩ (by omega) (by omega)]
  omega

/-- C5 counterexample: 13 fields of 13 bits (169 bits) cannot fill the
13-byte region, which holds 13 × 8 = 104 bits; on the concrete all-ones
Normal-mode input `sampleAllOnes` the decoder surfaces 8 values and the
region value has no bits at or beyond slot 8 (bit offset 13 × 8), so there
are no unextracted packed slots. -/
theorem C5_counterexample :
    13 * 13 ≠ 13 * 8 ∧
    (ExtractCombustionPacket sampleAllOnes).map (fun x => x.1.Temps.length) = some 8 ∧
    leBytes ((sampleAllOnes.drop 5).take 13) >>> (13 * 8) = 0 := by
  refine ⟨by norm_num, by decide, by decide⟩

/-- C5 amended: the packed thermistor region at bytes 5–17 consists of 8
consecutive 13-bit fields exactly filling 104 = 13 × 8 bits (the region's
little-endian value is below `2 ^ (13 * 8)`), most-significant value first
after the in-place byte reversal; Normal-mode decoding extracts all 8
packed slots: `Temps[s]` is the field at bit offset `13 * s`. -/
theorem C5_packed_layout (raw : List ℕ) (h : 22 ≤ raw.length) (hb : IsBytes raw) :
    ∃ p buf, ExtractCombustionPacket raw = some (p, buf) ∧
      ((raw.drop 5).take 13).length = 13 ∧
      (raw.getD 18 0 &&& 0x03 = CombustionModeNormal →
        p.Temps = (List.range 8).map (fun s =>
          fromRawTemp ((leBytes ((raw.drop 5).take 13) >>> (13 * s)) &&& 8191)) ∧
        leBytes ((raw.drop 5).take 13) < 2 ^ (13 * 8)) := by
  obtain ⟨b0, b1, b2, b3, b4, b5, b6, b7, b8, b9, b10, b11, b12, b13, b14, b15, b16,
          b17, b18, b19, b20, b21, t, rfl⟩ := exists_cons22 raw h
  have hreg : ((([b0, b1, b2, b3, b4, b5, b6, b7, b8, b9, b10, b11, b12, b13, b14,
      b15, b16, b17, b18, b19, b20, b21] ++ t).drop 5).take 13) =
      [b5, b6, b7, b8, b9, b10, b11, b12, b13, b14, b15, b16, b17] := by
    simp
  have hlen : ((([b0, b1, b2, b3, b4, b5, b6, b7, b8, b9, b10, b11, b12, b13, b14,
      b15, b16, b17, b18, b19, b20, b21] ++ t).drop 5).take 13).length = 13 := by
    rw [hreg]
    rfl
  by_cases h1 : b18 &&& 0x03 = CombustionModeInstantRead
  · refine ⟨_, _, extract_cons_instant b0 b1 b2 b3 b4 b5 b6 b7 b8 b9 b10 b11 b12 b13
      b14 b15 b16 b17 b18 b19 b20 b21 t h1, hlen, ?_⟩
    intro hm
    simp only [List.getD_cons_succ, List.getD_cons_zero, List.cons_append,
      List.nil_append] at hm
    rw [hm] at h1
    cases h1
  by_cases h0 : b18 &&& 0x03 = CombustionModeNormal
  · refine ⟨_, _, extract_cons_normal b0 b1 b2 b3 b4 b5 b6 b7 b8 b9 b10 b11 b12 b13
      b14 b15 b16 b17 b18 b19 b20 b21 t h0, hlen, ?_⟩
    intro _
    have hb5 : b5 < 256 := hb b5 (by simp)
    have hb6 : b6 < 256 := hb b6 (by simp)
    have hb7 : b7 < 256 := hb b7 (by simp)
    have hb8 : b8 < 256 := hb b8 (by simp)
    have hb9 : b9 < 256 := hb b9 (by simp)
    have hb10 : b10 < 256 := hb b10 (by simp)
    have hb11 : b11 < 256 := hb b11 (by simp)
    have hb12 : b12 < 256 := hb b12 (by simp)
    have hb13 : b13 < 256 := hb b13 (by simp)
    have hb14 : b14 < 256 := hb b14 (by simp)
    have hb15 : b15 < 256 := hb b15 (by simp)
    have hb16 : b16 < 256 := hb b16 (by simp)
    have hb17 : b17 < 256 := hb b17 (by simp)
    rw [hreg]
    constructor
    · show (normalRawTemps b17 b16 b15 b14 b13 b12 b11 b10 b9 b8 b7 b6 b5).map fromRawTemp = _
      rw [normalRawTemps_eq_bits b5 b6 b7 b8 b9 b10 b11 b12 b13 b14 b15 b16 b17
        hb5 hb6 hb7 hb8 hb9 hb10 hb11 hb12 hb13 hb14 hb15 hb16 hb17]
      rw [List.map_map]
      rfl
    · simp only [leBytes]
      omega
  · refine ⟨_, _, extract_cons_reserved b0 b1 b2 b3 b4 b5 b6 b7 b8 b9 b10 b11 b12 b13
      b14 b15 b16 b17 b18 b19 b20 b21 t h0 h1, hlen, ?_⟩
    intro hm
    simp only [List.getD_cons_succ, List.getD_cons_zero, List.cons_append,
      List.nil_append] at hm
    exact absurd hm h0

/-- Witness for C5 amended at the concrete input `sampleAllOnes`. -/
theorem C5_packed_layout_witness :
    ∃ p buf, ExtractCombustionPacket sampleAllOnes = some (p, buf) ∧
      ((sampleAllOnes.drop 5).take 13).length = 13 ∧
      (sampleAllOnes.getD 18 0 &&& 0x03 = CombustionModeNormal →
        p.Temps = (List.range 8).map (fun s =>
          fromRawTemp ((leBytes ((sampleAllOnes.drop 5).take 13) >>> (13 * s)) &&& 8191)) ∧
        leBytes ((sampleAllOnes.drop 5).take 13) < 2 ^ (13 * 8)) :=
  C5_packed_layout sampleAllOnes (by decide) (by decide)

/-- Shared characterization of all non-temperature fields of a successful
decode, in terms of the original input bytes. -/
theorem extract_some_fields (raw : List ℕ) (h : 22 ≤ raw.length) :
    ∃ p buf, ExtractCombustionPacket raw = some (p, buf) ∧
      p.ProductType = raw.getD 0 0 ∧
      p.SerialNumber =
        hexEncodeToString [raw.getD 4 0, raw.getD 3 0, raw.getD 2 0, raw.getD 1 0] ∧
      p.Mode = raw.getD 18 0 &&& 0x03 ∧
      p.ColorID = (raw.getD 18 0 >>> 2) &&& 0x70 ∧
      p.ProbeID = (raw.getD 18 0 >>> 5) &&& 0x70 ∧
      p.BatteryOK = decide ((raw.getD 19 0 &&& 0x01) = 0x00) ∧
      p.VirtualCoreIndex = (raw.getD 19 0 >>> 1) &&& 0x07 ∧
      p.VirtualSurfaceIndex = ((raw.getD 19 0 >>> 4) &&& 0x03) + 3 ∧
      p.VirtualAmbientIndex = ((raw.getD 19 0 >>> 6) &&& 0x03) + 4 ∧
      p.Overheating = overheatingFlags (raw.getD 21 0) := by
  obtain ⟨b0, b1, b2, b3, b4, b5, b6, b7, b8, b9, b10, b11, b12, b13, b14, b15, b16,
          b17, b18, b19, b20, b21, t, rfl⟩ := exists_cons22 raw h
  by_cases h1 : b18 &&& 0x03 = CombustionModeInstantRead
  · refine ⟨_, _, extract_cons_instant b0 b1 b2 b3 b4 b5 b6 b7 b8 b9 b10 b11 b12 b13
      b14 b15 b16 b17 b18 b19 b20 b21 t h1,
      ?_, ?_, ?_, ?_, ?_, ?_, ?_, ?_, ?_, ?_⟩ <;> simp
  by_cases h0 : b18 &&& 0x03 = CombustionModeNormal
  · refine ⟨_, _, extract_cons_normal b0 b1 b2 b3 b4 b5 b6 b7 b8 b9 b10 b11 b12 b13
      b14 b15 b16 b17 b18 b19 b20 b21 t h0,
      ?_, ?_, ?_, ?_, ?_, ?_, ?_, ?_, ?_, ?_⟩ <;> simp
  · refine ⟨_, _, extract_cons_reserved b0 b1 b2 b3 b4 b5 b6 b7 b8 b9 b10 b11 b12 b13
      b14 b15 b16 b17 b18 b19 b20 b21 t h0 h1,
      ?_, ?_, ?_, ?_, ?_, ?_, ?_, ?_, ?_, ?_⟩ <;> simp

/-- Every byte of a byte list read through `getD` at an in-range index is
below 256. -/
theorem getD_lt_of_isBytes (l : List ℕ) (i : ℕ) (hi : i < l.length) (hb : IsBytes l) :
    l.getD i 0 < 256 := by
  have hm : l.getD i 0 ∈ l := by
    rw [List.getD_eq_getElem l 0 hi]
    exact List.getElem_mem hi
  exact hb _ hm

/-- Hexadecimal digits produced from in-range nibbles lie in the hex table. -/
theorem hexTable_getD_mem : ∀ n < 16, hexTable.getD n '0' ∈ hexTable := by
  decide

/-- Nibble bounds for bytes. -/
theorem nibble_bounds : ∀ b < 256, b >>> 4 < 16 ∧ b &&& 0x0f < 16 := by
  decide

/-- C6: for every input of at least 22 bytes of bytes, the decoded serial
number is the hex encoding of input bytes 1–4 in reversed order (byte 4
first), is exactly 8 characters long, and every character is a lowercase
hexadecimal digit (an element of the `encoding/hex` table). -/
theorem C6_serial_number (raw : List ℕ) (h : 22 ≤ raw.length) (hb : IsBytes raw) :
    ∃ p buf, ExtractCombustionPacket raw = some (p, buf) ∧
      p.SerialNumber =
        hexEncodeToString [raw.getD 4 0, raw.getD 3 0, raw.getD 2 0, raw.getD 1 0] ∧
      p.SerialNumber.length = 8 ∧
      ∀ c ∈ p.SerialNumber.data, c ∈ hexTable := by
  obtain ⟨p, buf, hd, _, hserial, _⟩ := extract_some_fields raw h
  have g4 : raw.getD 4 0 < 256 := getD_lt_of_isBytes raw 4 (by omega) hb
  have g3 : raw.getD 3 0 < 256 := getD_lt_of_isBytes raw 3 (by omega) hb
  have g2 : raw.getD 2 0 < 256 := getD_lt_of_isBytes raw 2 (by omega) hb
  have g1 : raw.getD 1 0 < 256 := getD_lt_of_isBytes raw 1 (by omega) hb
  refine ⟨p, buf, hd, hserial, ?_, ?_⟩
  · rw [hserial]
    rfl
  · rw [hserial]
    show ∀ c ∈ [hexTable.getD (raw.getD 4 0 >>> 4) '0',
                hexTable.getD (raw.getD 4 0 &&& 0x0f) '0',
                hexTable.getD (raw.getD 3 0 >>> 4) '0',
                hexTable.getD (raw.getD 3 0 &&& 0x0f) '0',
                hexTable.getD (raw.getD 2 0 >>> 4) '0',
                hexTable.getD (raw.getD 2 0 &&& 0x0f) '0',
                hexTable.getD (raw.getD 1 0 >>> 4) '0',
                hexTable.getD (raw.getD 1 0 &&& 0x0f) '0'], c ∈ hexTable
    simp only [List.forall_mem_cons, List.forall_mem_nil]
    refine ⟨?_, ?_, ?_, ?_, ?_, ?_, ?_, ?_, List.forall_mem_nil _⟩ <;>
      exact hexTable_getD_mem _ (by
        first
        | exact (nibble_bounds _ (by omega)).1
        | exact (nibble_bounds _ (by omega)).2)

/-- Witness for C6 at the concrete input `sampleReserved`. -/
theorem C6_serial_number_witness :
    ∃ p buf, ExtractCombustionPacket sampleNormal = some (p, buf) ∧
      p.SerialNumber = hexEncodeToString [sampleNormal.getD 4 0, sampleNormal.getD 3 0,
        sampleNormal.getD 2 0, sampleNormal.getD 1 0] ∧
      p.SerialNumber.length = 8 ∧
      ∀ c ∈ p.SerialNumber.data, c ∈ hexTable :=
  C6_serial_number sampleNormal (by decide) (by decide)

/-- C7: for every input of at least 22 bytes, the virtual core index lies in
[0, 7], the virtual surface index in [3, 6], the virtual ambient index in
[4, 7]; and when byte 19 is `0x01` the battery flag is false and the three
indices are 0, 3, 4. -/
theorem C7_virtual_indices (raw : List ℕ) (h : 22 ≤ raw.length) :
    ∃ p buf, ExtractCombustionPacket raw = some (p, buf) ∧
      p.VirtualCoreIndex ≤ 7 ∧
      3 ≤ p.VirtualSurfaceIndex ∧ p.VirtualSurfaceIndex ≤ 6 ∧
      4 ≤ p.VirtualAmbientIndex ∧ p.VirtualAmbientIndex ≤ 7 ∧
      (raw.getD 19 0 = 0x01 →
        p.BatteryOK = false ∧ p.VirtualCoreIndex = 0 ∧
        p.VirtualSurfaceIndex = 3 ∧ p.VirtualAmbientIndex = 4) := by
  obtain ⟨p, buf, hd, _, _, _, _, _, hbat, hcore, hsurf, hamb, _⟩ :=
    extract_some_fields raw h
  have hc : (raw.getD 19 0 >>> 1) &&& 0x07 ≤ 7 := Nat.and_le_right
  have hs : (raw.getD 19 0 >>> 4) &&& 0x03 ≤ 3 := Nat.and_le_right
  have ha : (raw.getD 19 0 >>> 6) &&& 0x03 ≤ 3 := Nat.and_le_right
  refine ⟨p, buf, hd, by omega, by omega, by omega, by omega, by omega, ?_⟩
  intro h19
  rw [h19] at hbat hcore hsurf hamb
  refine ⟨?_, ?_, ?_, ?_⟩
  · rw [hbat]
    rfl
  · rw [hcore]
    decide
  · rw [hsurf]
    decide
  · rw [hamb]
    decide

/-- Witness for C7 at the concrete input `sampleBattery` (byte 19 = 1). -/
theorem C7_virtual_indices_witness :
    ∃ p buf, ExtractCombustionPacket sampleBattery = some (p, buf) ∧
      p.VirtualCoreIndex ≤ 7 ∧
      3 ≤ p.VirtualSurfaceIndex ∧ p.VirtualSurfaceIndex ≤ 6 ∧
      4 ≤ p.VirtualAmbientIndex ∧ p.VirtualAmbientIndex ≤ 7 ∧
      (sampleBattery.getD 19 0 = 0x01 →
        p.BatteryOK = false ∧ p.VirtualCoreIndex = 0 ∧
        p.VirtualSurfaceIndex = 3 ∧ p.VirtualAmbientIndex = 4) :=
  C7_virtual_indices sampleBattery (by decide)

/-- The unrolled overheating list agrees with the bits of byte 21. -/
theorem overheatingFlags_testBit : ∀ b < 256, ∀ i < 8,
    (overheatingFlags b).getD i false = b.testBit i := by
  decide

/-- C8: for every byte input of at least 22 bytes and every index `i < 8`,
`Overheating[i]` is true exactly when bit `i` (value `1 <<< i`) of byte 21
is set, independent of the decoded mode. -/
theorem C8_overheating_bits (raw : List ℕ) (h : 22 ≤ raw.length) (hb : IsBytes raw) :
    ∃ p buf, ExtractCombustionPacket raw = some (p, buf) ∧
      ∀ i < 8, p.Overheating.getD i false = (raw.getD 21 0).testBit i := by
  obtain ⟨p, buf, hd, _, _, _, _, _, _, _, _, _, hoh⟩ := extract_some_fields raw h
  refine ⟨p, buf, hd, ?_⟩
  intro i hi
  rw [hoh]
  exact overheatingFlags_testBit (raw.getD 21 0) (getD_lt_of_isBytes raw 21 (by omega) hb) i hi

/-- Witness for C8 at the concrete input `sampleReserved`. -/
theorem C8_overheating_bits_witness :
    ∃ p buf, ExtractCombustionPacket sampleReserved = some (p, buf) ∧
      ∀ i < 8, p.Overheating.getD i false = (sampleReserved.getD 21 0).testBit i :=
  C8_overheating_bits sampleReserved (by decide) (by decide)

/-- The probe-id expression of the source is identically zero on bytes. -/
theorem probe_id_zero : ∀ b < 256, (b >>> 5) &&& 0x70 = 0 := by
  decide

/-- The color-id expression of the source only takes the four values
0x00, 0x10, 0x20, 0x30 on bytes. -/
theorem color_id_values : ∀ b < 256,
    (b >>> 2) &&& 0x70 = 0x00 ∨ (b >>> 2) &&& 0x70 = 0x10 ∨
    (b >>> 2) &&& 0x70 = 0x20 ∨ (b >>> 2) &&& 0x70 = 0x30 := by
  decide

/-- C10: for every byte input of at least 22 bytes, the decoded `ProbeID`
is 0 (the source masks an already-shifted 3-bit value with `0x70`), the
decoded `ColorID` is one of 0x00, 0x10, 0x20, 0x30, and in particular
`ColorID` never equals the declared `CombustionColorGrey` value 1. -/
theorem C10_probe_color_invariant (raw : List ℕ) (h : 22 ≤ raw.length) (hb : IsBytes raw) :
    ∃ p buf, ExtractCombustionPacket raw = some (p, buf) ∧
      p.ProbeID = 0 ∧
      (p.ColorID = 0x00 ∨ p.ColorID = 0x10 ∨ p.ColorID = 0x20 ∨ p.ColorID = 0x30) ∧
      p.ColorID ≠ CombustionColorGrey := by
  obtain ⟨p, buf, hd, _, _, _, hcolor, hprobe, _⟩ := extract_some_fields raw h
  have h18 : raw.getD 18 0 < 256 := getD_lt_of_isBytes raw 18 (by omega) hb
  have hcv := color_id_values (raw.getD 18 0) h18
  refine ⟨p, buf, hd, ?_, ?_, ?_⟩
  · rw [hprobe]
    exact probe_id_zero (raw.getD 18 0) h18
  · rw [hcolor]
    exact hcv
  · rcases hcv with hv | hv | hv | hv <;> rw [hcolor, hv] <;> decide

/-- Witness for C10 at the concrete input `sampleInstant`. -/
theorem C10_probe_color_invariant_witness :
    ∃ p buf, ExtractCombustionPacket sampleInstant = some (p, buf) ∧
      p.ProbeID = 0 ∧
      (p.ColorID = 0x00 ∨ p.ColorID = 0x10 ∨ p.ColorID = 0x20 ∨ p.ColorID = 0x30) ∧
      p.ColorID ≠ CombustionColorGrey :=
  C10_probe_color_invariant sampleInstant (by decide) (by decide)

/-- C9: every extracted temperature is `fromRawTemp` of a 13-bit raw value,
where `fromRawTemp` is the source's conversion `celsius = raw * 0.05 - 20.0`
in binary32 arithmetic (represented exactly in units of `2 ^ (-28)`); in
particular raw 0 converts to exactly −20.0 °C and raw 800 to exactly
20.0 °C. -/
theorem C9_temperature_conversion :
    (∀ raw, 22 ≤ raw.length → IsBytes raw →
      ∃ p buf, ExtractCombustionPacket raw = some (p, buf) ∧
        ∀ tp ∈ p.Temps, ∃ r, r < 2 ^ 13 ∧ tp = fromRawTemp r) ∧
    fromRawTemp 0 = -20 * 2 ^ 28 ∧ fromRawTemp 800 = 20 * 2 ^ 28 := by
  refine ⟨?_, by decide, by decide⟩
  intro raw h hb
  obtain ⟨b0, b1, b2, b3, b4, b5, b6, b7, b8, b9, b10, b11, b12, b13, b14, b15, b16,
          b17, b18, b19, b20, b21, t, rfl⟩ := exists_cons22 raw h
  have hb5 : b5 < 256 := hb b5 (by simp)
  have hb6 : b6 < 256 := hb b6 (by simp)
  have hb7 : b7 < 256 := hb b7 (by simp)
  have hb8 : b8 < 256 := hb b8 (by simp)
  have hb9 : b9 < 256 := hb b9 (by simp)
  have hb10 : b10 < 256 := hb b10 (by simp)
  have hb11 : b11 < 256 := hb b11 (by simp)
  have hb12 : b12 < 256 := hb b12 (by simp)
  have hb13 : b13 < 256 := hb b13 (by simp)
  have hb14 : b14 < 256 := hb b14 (by simp)
  have hb15 : b15 < 256 := hb b15 (by simp)
  have hb16 : b16 < 256 := hb b16 (by simp)
  have hb17 : b17 < 256 := hb b17 (by simp)
  by_cases h1 : b18 &&& 0x03 = CombustionModeInstantRead
  · refine ⟨_, _, extract_cons_instant b0 b1 b2 b3 b4 b5 b6 b7 b8 b9 b10 b11 b12 b13
      b14 b15 b16 b17 b18 b19 b20 b21 t h1, ?_⟩
    intro tp htp
    simp only [List.mem_singleton] at htp
    exact ⟨instantRawTemp b6 b5, instantRawTemp_lt b6 b5 hb6 hb5, htp⟩
  by_cases h0 : b18 &&& 0x03 = CombustionModeNormal
  · refine ⟨_, _, extract_cons_normal b0 b1 b2 b3 b4 b5 b6 b7 b8 b9 b10 b11 b12 b13
      b14 b15 b16 b17 b18 b19 b20 b21 t h0, ?_⟩
    intro tp htp
    simp only [List.mem_map] at htp
    obtain ⟨a, ha, rfl⟩ := htp
    rw [normalRawTemps_eq_bits b5 b6 b7 b8 b9 b10 b11 b12 b13 b14 b15 b16 b17
      hb5 hb6 hb7 hb8 hb9 hb10 hb11 hb12 hb13 hb14 hb15 hb16 hb17] at ha
    simp only [List.mem_map] at ha
    obtain ⟨s, _, rfl⟩ := ha
    refine ⟨_, ?_, rfl⟩
    have hle : (leBytes [b5, b6, b7, b8, b9, b10, b11, b12, b13, b14, b15, b16, b17] >>>
        (13 * s)) &&& 8191 ≤ 8191 := Nat.and_le_right
    omega
  · refine ⟨_, _, extract_cons_reserved b0 b1 b2 b3 b4 b5 b6 b7 b8 b9 b10 b11 b12 b13
      b14 b15 b16 b17 b18 b19 b20 b21 t h0 h1, ?_⟩
    intro tp htp
    simp only [List.not_mem_nil] at htp

/-- Witness for C9 at the concrete input `sampleInstant`. -/
theorem C9_temperature_conversion_witness :
    (∃ p buf, ExtractCombustionPacket sampleInstant = some (p, buf) ∧
      ∀ tp ∈ p.Temps, ∃ r, r < 2 ^ 13 ∧ tp = fromRawTemp r) ∧
    fromRawTemp 0 = -20 * 2 ^ 28 ∧ fromRawTemp 800 = 20 * 2 ^ 28 :=
  ⟨C9_temperature_conversion.1 sampleInstant (by decide) (by decide),
   C9_temperature_conversion.2⟩

end Combustion
